import Mathlib

/-!
Shallow embedding of the AstroSpecVis numeric core
(`src/astrospecvis/utils/utils.py`, `models/data_processor.py`,
`models/data_loader.py`, `models/lightcurve_plotter.py`).

Numbers are modelled as `Option ℚ`: `none` stands for the floating-point
NaN (a missing or invalid observation), `some q` for a finite value.
1D numpy arrays of flux become `List (Option ℚ)`; plain axes (times,
wavelengths) become `List ℚ`; 2D arrays become lists of rows.  Division
by zero, which in numpy yields an infinity, is modelled as `none`; every
property verified below only depends on positions where the divisor is
nonzero.
-/

namespace AstroSpecVis

/-- NaN-aware mean of a window (`np.nanmean`): ignores `none` entries and
divides by the count of the remaining ones; `none` when nothing remains. -/
def nanmean (l : List (Option ℚ)) : Option ℚ :=
  let v := l.filterMap id
  if v.isEmpty then none else some (v.sum / (v.length : ℚ))

/-- Ascending sort of a list of rationals. -/
def sortQ (l : List ℚ) : List ℚ :=
  l.insertionSort (fun a b => a ≤ b)

/-- Median of a list of rationals, numpy convention: sort ascending, take
the middle element for odd length and the mean of the two middle elements
for even length; `none` for the empty list. -/
def medianQ (l : List ℚ) : Option ℚ :=
  if (sortQ l).length = 0 then none
  else if (sortQ l).length % 2 = 1 then
    some ((sortQ l).getD ((sortQ l).length / 2) 0)
  else
    some (((sortQ l).getD ((sortQ l).length / 2 - 1) 0 +
      (sortQ l).getD ((sortQ l).length / 2) 0) / 2)

/-- NaN-aware median (`np.nanmedian`): drop the NaNs, median of the rest. -/
def nanmedian (l : List (Option ℚ)) : Option ℚ :=
  medianQ (l.filterMap id)

/-- Plain `np.median`: NaN whenever the input is empty or contains a NaN. -/
def npMedian (l : List (Option ℚ)) : Option ℚ :=
  if l.isEmpty ∨ l.any (fun x => x.isNone) then none
  else medianQ (l.filterMap id)

/-- Plain `np.mean` over a selection: NaN when the selection is empty or
any entry is NaN. -/
def meanOpt (l : List (Option ℚ)) : Option ℚ :=
  if l.isEmpty ∨ l.any (fun x => x.isNone) then none
  else some ((l.filterMap id).sum / (l.length : ℚ))

/-- NaN-propagating division; a zero divisor is also mapped to NaN. -/
def odiv : Option ℚ → Option ℚ → Option ℚ
  | some a, some b => if b = 0 then none else some (a / b)
  | _, _ => none

/-- NaN-propagating subtraction. -/
def osub : Option ℚ → Option ℚ → Option ℚ
  | some a, some b => some (a - b)
  | _, _ => none

/-- NaN-propagating multiplication. -/
def omul : Option ℚ → Option ℚ → Option ℚ
  | some a, some b => some (a * b)
  | _, _ => none

/-- `np.isfinite` on a modelled value. -/
def isFin : Option ℚ → Bool
  | some _ => true
  | none => false

/-- Fuel-driven worker for `chunks`; the fuel bounds the recursion depth
and is irrelevant once it is at least the list length. -/
def chunksF (b : ℕ) : ℕ → List α → List (List α)
  | 0, _ => []
  | fuel + 1, l =>
    if 0 < b ∧ b ≤ l.length then l.take b :: chunksF b fuel (l.drop b)
    else []

/-- Row-major windows of width `b`: the numpy reshape `(-1, b)` of the
first `b * (n / b)` elements of the list, the trailing remainder being
dropped. -/
def chunks (b : ℕ) (l : List α) : List (List α) :=
  chunksF b l.length l

/-! ## The repository's error taxonomy

The spec names abstract failures (`InvalidParameter`, `ShapeMismatch`,
`EmptyResult`, ...); the source raises Python exceptions
(`ValueError`, `ZeroDivisionError`) or logs an error and returns early
without producing its output artifact.  Both are modelled by an
`Except`-returning function with the constructors below. -/

inductive PyError where
  | emptyResult
  | invalidParameter
  | valueError
  | zeroDivision
  | shapeMismatch
deriving DecidableEq

deriving instance DecidableEq for Except

/-! ## utils/utils.py -/

/-- `median_bin` (utils.py lines 6-18): truncate to `bin_size * (N // bin_size)`
elements, reshape to `(-1, bin_size)` and take `np.nanmedian` along axis 1. -/
def median_bin (input_array : List (Option ℚ)) (bin_size : ℕ) :
    List (Option ℚ) :=
  (chunks bin_size input_array).map nanmedian

/-- `bin_flux_array` (utils.py lines 24-49), numeric core: per wavelength row,
truncate the time axis to `binned_timepoints * bin_size` columns, reshape to
`(num_wavelengths, binned_timepoints, bin_size)` and take `np.nanmean` along
axis 2.  numpy arrays are rectangular, so the per-row reshape is exactly the
row-major windowing of each row. -/
def bin_flux_array (flux_data : List (List (Option ℚ))) (bin_size : ℕ) :
    List (List (Option ℚ)) :=
  flux_data.map (fun row => (chunks bin_size row).map nanmean)

/-- Python `int()` applied to a number: truncation toward zero. -/
def pyInt (q : ℚ) : Int :=
  if 0 ≤ q then ⌊q⌋ else ⌈q⌉

/-- `bin_flux_array` with the dynamic behavior of the source on an arbitrary
numeric `bin_size`: the source first coerces with `int(bin_size)` (line 36);
the subsequent `isinstance(..., int)` check (line 42) can then never fail.
A zero coerced value raises `ZeroDivisionError` at the `//` on line 45; a
negative one makes the reshape on line 46 raise a `ValueError` (two negative
dimensions, or an underdetermined unknown dimension); a positive one
proceeds normally. -/
def bin_flux_array_dyn (flux_data : List (List (Option ℚ))) (bin_size : ℚ) :
    Except PyError (List (List (Option ℚ))) :=
  let b := pyInt bin_size
  if b = 0 then .error .zeroDivision
  else if b < 0 then .error .valueError
  else .ok (bin_flux_array flux_data b.toNat)

/-- Python slicing `times[::bin_size]`: every `bin_size`-th element starting
at index 0; length `⌈N / bin_size⌉`. -/
def strideSample (times : List ℚ) (bin_size : ℕ) : List ℚ :=
  (List.range ((times.length + bin_size - 1) / bin_size)).map
    (fun i => times.getD (i * bin_size) 0)

/-- Column count of a 2D array as numpy tracks it through `.shape`: the
length of the first row (0 for an empty array). -/
def colCount (g : List (List (Option ℚ))) : ℕ :=
  (g.head?.map List.length).getD 0

/-! ## models/data_processor.py -/

/-- `normalize_spectrum` (data_processor.py lines 18-21), the 1D branch:
divide every element by the NaN-aware median of the whole array. -/
def normalize_spectrum1 (spectral_data : List (Option ℚ)) :
    List (Option ℚ) :=
  spectral_data.map (fun x => odiv x (nanmedian spectral_data))

/-- `normalize_spectrum` (data_processor.py lines 22-25), the 2D branch:
divide every row by that row's NaN-aware median (`axis=1, keepdims=True`,
broadcast across the row). -/
def normalize_spectrum2 (spectral_data : List (List (Option ℚ))) :
    List (List (Option ℚ)) :=
  spectral_data.map (fun row => row.map (fun x => odiv x (nanmedian row)))

/-! ## models/data_loader.py -/

/-- `np.unique`: the distinct values, sorted ascending. -/
def np_unique (l : List ℚ) : List ℚ :=
  (l.insertionSort (fun a b => a ≤ b)).dedup

/-- numpy `reshape(U, -1)` on a flat column of length `R`: succeeds iff the
unknown dimension can be inferred, i.e. `U ≠ 0` and `U ∣ R`, giving `U`
row-major rows of length `R / U`; raises a `ValueError` otherwise
(mapped to the spec's `ShapeMismatch`). -/
def np_reshape_rows (l : List α) (U : ℕ) : Except PyError (List (List α)) :=
  if U ≠ 0 ∧ U ∣ l.length then
    .ok ((List.range U).map
      (fun i => (l.drop (i * (l.length / U))).take (l.length / U)))
  else .error .shapeMismatch

/-- `extract_miri_data` (data_loader.py lines 33-65), numeric core: the
five columns of the table are passed separately; the unique wavelength and
time values are computed with `np.unique` and each flux column is reshaped
to `(unique wavelength count, -1)`. -/
def extract_miri_data (wla wlb : List ℚ) (fluxa fluxb : List (Option ℚ))
    (mjd : List ℚ) :
    Except PyError
      (List ℚ × List ℚ × List ℚ ×
        List (List (Option ℚ)) × List (List (Option ℚ))) :=
  let unique_wavelengths_a := np_unique wla
  let unique_wavelengths_b := np_unique wlb
  let unique_times := np_unique mjd
  match np_reshape_rows fluxa unique_wavelengths_a.length with
  | .error e => .error e
  | .ok spectra_a_2d =>
    match np_reshape_rows fluxb unique_wavelengths_b.length with
    | .error e => .error e
    | .ok spectra_b_2d =>
      .ok (unique_times, unique_wavelengths_a, unique_wavelengths_b,
        spectra_a_2d, spectra_b_2d)

/-! ## models/lightcurve_plotter.py -/

/-- `np.min` of a nonempty list (callers guard emptiness). -/
def listMinD (l : List ℚ) : ℚ :=
  match l with
  | [] => 0
  | x :: xs => xs.foldl min x

/-- `np.any(np.isfinite(g))` for a 2D grid. -/
def anyFinite (g : List (List (Option ℚ))) : Bool :=
  g.any (fun row => row.any (fun x => isFin x))

/-- The `plot_type == 'variability'` branch (lightcurve_plotter.py lines
70-73): per row, `median_flux = np.nanmedian(row)` and
`z = np.where(np.isfinite(flux), ((flux / median_flux) - 1) * 100, np.nan)`. -/
def variability_z (flux_data : List (List (Option ℚ))) :
    List (List (Option ℚ)) :=
  flux_data.map (fun row =>
    let median_flux := nanmedian row
    row.map (fun f =>
      if isFin f then omul (osub (odiv f median_flux) (some 1)) (some 100)
      else none))

/-- The mode dispatch of `plot_enhanced_lightcurve_map` (lines 70-79):
`variability` and `flux` produce a z grid, any other `plot_type` raises
`ValueError` (the spec's `InvalidParameter`). -/
def zForMode (plot_type : String) (flux_data : List (List (Option ℚ))) :
    Except PyError (List (List (Option ℚ))) :=
  if plot_type = "variability" then .ok (variability_z flux_data)
  else if plot_type = "flux" then .ok flux_data
  else .error .invalidParameter

/-- A wavelength-range mask over a 2D wavelength grid (lines 102-103):
`(grid >= lo) & (grid <= hi)`, inclusive at both ends. -/
def maskOf (lo hi : ℚ) (wavelength_grid : List (List ℚ)) :
    List (List Bool) :=
  wavelength_grid.map (fun row => row.map (fun w => decide (lo ≤ w ∧ w ≤ hi)))

/-- The numeric grids handed to the renderer by
`plot_enhanced_lightcurve_map`. -/
structure MapResult where
  time_grid : List (List ℚ)
  wavelength_grid : List (List ℚ)
  z_data : List (List (Option ℚ))
  ch4_mask : List (List Bool)
  co_mask : List (List Bool)
deriving DecidableEq

/-- Numeric core of `plot_enhanced_lightcurve_map` (lightcurve_plotter.py
lines 44-103), in source order:
bin the flux (line 48) and stride-subsample the times (line 49); read
`num_times` off the binned shape (line 52); if it is zero, log an error and
return without producing a plot (lines 55-57, modelled as an `EmptyResult`
failure); convert times to elapsed hours relative to `times.min()` (line 60,
`np.min` of an empty array raises `ValueError`); form the
`np.meshgrid(time_hours, wavelengths)` coordinate grids and truncate both to
`num_times` columns (lines 61-65); compute the z grid for the mode (lines
70-79); discard the first 60 wavelength rows of all three grids (lines
84-86); if no finite z value remains, log an error and return without
producing a plot (lines 93-95, modelled as an `EmptyResult` failure);
compute the CH4 `[2.14, 2.5]` and CO `[4.5, 5.05]` masks over the sliced
wavelength grid (lines 98-103). -/
def plot_enhanced_lightcurve_map (flux_data : List (List (Option ℚ)))
    (wavelengths : List ℚ) (times : List ℚ) (plot_type : String)
    (bin_size : ℕ) : Except PyError MapResult :=
  let flux2 := bin_flux_array flux_data bin_size
  let times2 := strideSample times bin_size
  let num_times := colCount flux_data / bin_size
  if num_times = 0 then .error .emptyResult
  else if times2.isEmpty then .error .valueError
  else
    let time_hours := times2.map (fun t => (t - listMinD times2) * 24)
    let time_grid := wavelengths.map (fun _ => time_hours.take num_times)
    let wavelength_grid :=
      wavelengths.map (fun w => (time_hours.take num_times).map (fun _ => w))
    match zForMode plot_type flux2 with
    | .error e => .error e
    | .ok z0 =>
      let wavelength_grid2 := wavelength_grid.drop 60
      let time_grid2 := time_grid.drop 60
      let z_data := z0.drop 60
      if anyFinite z_data then
        .ok ⟨time_grid2, wavelength_grid2, z_data,
          maskOf 2.14 2.5 wavelength_grid2, maskOf 4.5 5.05 wavelength_grid2⟩
      else .error .emptyResult

/-- `np.where((wavelengths >= lo) & (wavelengths <= hi))[0]`: the ascending
indices whose wavelength lies in the inclusive range. -/
def bandIndices (lo hi : ℚ) (wavelengths : List ℚ) : List ℕ :=
  (List.range wavelengths.length).filter
    (fun i => decide (lo ≤ wavelengths.getD i 0 ∧ wavelengths.getD i 0 ≤ hi))

/-- `np.mean(flux_data[indices, :], axis=0)`: at each of the `num_times`
time bins, the plain (not NaN-aware) mean of the selected rows; a mean over
an empty selection is NaN at every time bin. -/
def bandSeries (flux2 : List (List (Option ℚ))) (idx : List ℕ)
    (num_times : ℕ) : List (Option ℚ) :=
  (List.range num_times).map
    (fun t => meanOpt (idx.map (fun i => (flux2.getD i []).getD t none)))

/-- The numeric series handed to the renderer by
`plot_specific_wavelength_lightcurves`. -/
structure LightcurveResult where
  time_hours : List ℚ
  ch4_lightcurve : List (Option ℚ)
  co_lightcurve : List (Option ℚ)
deriving DecidableEq

/-- Numeric core of `plot_specific_wavelength_lightcurves`
(lightcurve_plotter.py lines 224-246): bin the flux and stride-subsample the
times; elapsed hours relative to `times.min()` (raises `ValueError` on an
empty array); select the CH4 `[2.14, 2.5]` and CO `[4.5, 5.05]` row indices
over the (unbinned) wavelength axis; average the selected rows per time bin
with plain `np.mean`; normalize each band series by its own plain
`np.median` (line 245-246). -/
def plot_specific_wavelength_lightcurves (flux_data : List (List (Option ℚ)))
    (wavelengths : List ℚ) (times : List ℚ) (bin_size : ℕ) :
    Except PyError LightcurveResult :=
  let flux2 := bin_flux_array flux_data bin_size
  let times2 := strideSample times bin_size
  if times2.isEmpty then .error .valueError
  else
    let time_hours := times2.map (fun t => (t - listMinD times2) * 24)
    let num_times := colCount flux_data / bin_size
    let ch4_idx := bandIndices 2.14 2.5 wavelengths
    let co_idx := bandIndices 4.5 5.05 wavelengths
    let s1 := bandSeries flux2 ch4_idx num_times
    let s2 := bandSeries flux2 co_idx num_times
    .ok ⟨time_hours,
      s1.map (fun x => odiv x (npMedian s1)),
      s2.map (fun x => odiv x (npMedian s2))⟩

/-- Modelled from the spec (for comparison with the source behavior in
claim C7): normalization of a 1D series by its NaN-aware median, the
convention of the Normalizer's 1D case. -/
def normalize_by_nanmedian (s : List (Option ℚ)) : List (Option ℚ) :=
  s.map (fun x => odiv x (nanmedian s))

/-- Whether a 2D array has `rows` rows each of length `cols`. -/
def rectShape (g : List (List α)) (rows cols : ℕ) : Prop :=
  g.length = rows ∧ ∀ row ∈ g, row.length = cols

/-- All five grids handed to the renderer have shape `rows × cols`
(vacuous on a failed run). -/
def resultShapesOk (r : Except PyError MapResult) (rows cols : ℕ) : Prop :=
  match r with
  | .ok out =>
    rectShape out.time_grid rows cols ∧
    rectShape out.wavelength_grid rows cols ∧
    rectShape out.z_data rows cols ∧
    rectShape out.ch4_mask rows cols ∧
    rectShape out.co_mask rows cols
  | .error _ => True

/-- The z grid handed to the renderer equals `z` (vacuous on a failed
run). -/
def resultZIs (r : Except PyError MapResult) (z : List (List (Option ℚ))) :
    Prop :=
  match r with
  | .ok out => out.z_data = z
  | .error _ => True

/-- The two band light curves handed to the renderer are the given series
(vacuous on a failed run). -/
def lcSeriesAre (r : Except PyError LightcurveResult)
    (s1 s2 : List (Option ℚ)) : Prop :=
  match r with
  | .ok out => out.ch4_lightcurve = s1 ∧ out.co_lightcurve = s2
  | .error _ => True

/-! # Supporting lemmas -/

theorem chunksF_nil_eq (b f : ℕ) : chunksF b f ([] : List α) = [] := by
  cases f with
  | zero => rfl
  | succ f2 =>
    rw [chunksF]
    rw [if_neg]
    rintro ⟨hb, hle⟩
    simp at hle
    omega

theorem chunksF_congr (b : ℕ) (f1 : ℕ) :
    ∀ (f2 : ℕ) (l : List α), l.length ≤ f1 → l.length ≤ f2 →
      chunksF b f1 l = chunksF b f2 l := by
  induction f1 with
  | zero =>
    intro f2 l h1 h2
    have h0 : l = [] := List.eq_nil_of_length_eq_zero (by omega)
    subst h0
    rw [chunksF_nil_eq, chunksF_nil_eq]
  | succ f3 ih =>
    intro f2 l h1 h2
    cases f2 with
    | zero =>
      have h0 : l = [] := List.eq_nil_of_length_eq_zero (by omega)
      subst h0
      rw [chunksF_nil_eq, chunksF_nil_eq]
    | succ f4 =>
      rw [chunksF, chunksF]
      by_cases hcond : 0 < b ∧ b ≤ l.length
      · rw [if_pos hcond, if_pos hcond]
        have hdrop : (l.drop b).length ≤ f3 := by
          simp only [List.length_drop]
          omega
        have hdrop2 : (l.drop b).length ≤ f4 := by
          simp only [List.length_drop]
          omega
        rw [ih f4 (l.drop b) hdrop hdrop2]
      · rw [if_neg hcond, if_neg hcond]

/-- The one-step unfolding of `chunks`. -/
theorem chunks_eq (b : ℕ) (l : List α) :
    chunks b l =
      if 0 < b ∧ b ≤ l.length then l.take b :: chunks b (l.drop b) else [] := by
  by_cases hcond : 0 < b ∧ b ≤ l.length
  · rw [if_pos hcond]
    obtain ⟨hb, hble⟩ := hcond
    have hlen : l.length = (l.length - 1) + 1 := by omega
    rw [chunks, chunks, hlen, chunksF, if_pos ⟨hb, hble⟩]
    congr 1
    apply chunksF_congr
    · simp only [List.length_drop]
      omega
    · exact le_refl _
  · rw [if_neg hcond, chunks]
    cases hn : l.length with
    | zero => rfl
    | succ n =>
      rw [chunksF, if_neg hcond]

theorem length_chunks (b : ℕ) (hb : 0 < b) (l : List α) :
    (chunks b l).length = l.length / b := by
  rw [chunks_eq]
  split
  · next h =>
    have ih := length_chunks b hb (l.drop b)
    simp only [List.length_cons, ih, List.length_drop]
    rw [← Nat.add_div_right (l.length - b) hb]
    congr 1
    omega
  · next h =>
    have hlt : l.length < b := by
      rcases Nat.lt_or_ge l.length b with h1 | h1
      · exact h1
      · exact absurd ⟨hb, h1⟩ h
    simp [Nat.div_eq_of_lt hlt]
termination_by l.length
decreasing_by
  simp only [List.length_drop]
  omega

theorem chunks_getElem? (b : ℕ) (hb : 0 < b) (l : List α) (i : ℕ)
    (hi : i < l.length / b) :
    (chunks b l)[i]? = some ((l.drop (i * b)).take b) := by
  rw [chunks_eq]
  split
  · next h =>
    cases i with
    | zero => simp
    | succ j =>
      have hj : j < (l.drop b).length / b := by
        have h2 : (l.drop b).length = l.length - b := List.length_drop ..
        have h3 : l.length = (l.length - b) + b := by omega
        rw [h2]
        rw [h3, Nat.add_div_right _ hb] at hi
        omega
      have ih := chunks_getElem? b hb (l.drop b) j hj
      simp only [List.getElem?_cons_succ, ih, List.drop_drop]
      have h4 : b + j * b = (j + 1) * b := by ring
      rw [h4]
  · next h =>
    exfalso
    have hlt : l.length < b := by
      rcases Nat.lt_or_ge l.length b with h1 | h1
      · exact h1
      · exact absurd ⟨hb, h1⟩ h
    rw [Nat.div_eq_of_lt hlt] at hi
    omega
termination_by l.length
decreasing_by
  simp only [List.length_drop]
  omega

theorem sortQ_perm (l : List ℚ) : (sortQ l).Perm l :=
  List.perm_insertionSort _ l

theorem sortQ_sorted (l : List ℚ) : (sortQ l).Sorted (fun a b => a ≤ b) :=
  List.sorted_insertionSort _ l

theorem length_sortQ (l : List ℚ) : (sortQ l).length = l.length :=
  (sortQ_perm l).length_eq

theorem getD_map_of_lt (f : α → β) (l : List α) (i : ℕ) (h : i < l.length)
    (d : β) (d2 : α) : (l.map f).getD i d = f (l.getD i d2) := by
  rw [List.getD_eq_getElem?_getD, List.getD_eq_getElem?_getD,
    List.getElem?_map, List.getElem?_eq_getElem h]
  rfl

theorem getD_reverse_of_lt (l : List α) (i : ℕ) (h : i < l.length) (d : α) :
    l.reverse.getD i d = l.getD (l.length - 1 - i) d := by
  rw [List.getD_eq_getElem?_getD, List.getD_eq_getElem?_getD,
    List.getElem?_reverse h]

theorem sortQ_map_mul_pos (l : List ℚ) (c : ℚ) (hc : 0 < c) :
    sortQ (l.map (fun x => x * c)) = (sortQ l).map (fun x => x * c) := by
  apply List.eq_of_perm_of_sorted (r := fun a b : ℚ => a ≤ b)
  · exact (sortQ_perm _).trans ((sortQ_perm l).map _).symm
  · exact sortQ_sorted _
  · exact List.Pairwise.map (fun x => x * c)
      (fun a b hab => mul_le_mul_of_nonneg_right hab (le_of_lt hc))
      (sortQ_sorted l)

theorem sortQ_map_mul_neg (l : List ℚ) (c : ℚ) (hc : c < 0) :
    sortQ (l.map (fun x => x * c)) = ((sortQ l).map (fun x => x * c)).reverse := by
  apply List.eq_of_perm_of_sorted (r := fun a b : ℚ => a ≤ b)
  · exact (sortQ_perm _).trans
      (((sortQ_perm l).map _).symm.trans (List.reverse_perm _).symm)
  · exact sortQ_sorted _
  · rw [List.Sorted, List.pairwise_reverse]
    exact List.Pairwise.map (fun x => x * c)
      (fun a b hab => mul_le_mul_of_nonpos_right hab (le_of_lt hc))
      (sortQ_sorted l)

theorem medianQ_mul (l : List ℚ) (c : ℚ) (hc : c ≠ 0) :
    medianQ (l.map (fun x => x * c)) = (medianQ l).map (fun x => x * c) := by
  rcases hc.lt_or_lt with hneg | hpos
  · rw [medianQ, medianQ, sortQ_map_mul_neg l c hneg]
    simp only [List.length_reverse, List.length_map]
    by_cases h0 : (sortQ l).length = 0
    · simp [h0]
    · rw [if_neg h0, if_neg h0]
      have hmaplen : ((sortQ l).map (fun x => x * c)).length = (sortQ l).length :=
        List.length_map ..
      by_cases hodd : (sortQ l).length % 2 = 1
      · rw [if_pos hodd, if_pos hodd]
        have hind : (sortQ l).length / 2 < ((sortQ l).map (fun x => x * c)).length := by
          rw [hmaplen]; omega
        rw [getD_reverse_of_lt _ _ hind 0, hmaplen]
        have heq : (sortQ l).length - 1 - (sortQ l).length / 2 = (sortQ l).length / 2 := by
          omega
        rw [heq, getD_map_of_lt _ _ _ (by omega) 0 0]
        rfl
      · rw [if_neg hodd, if_neg hodd]
        have hi1 : (sortQ l).length / 2 - 1 < ((sortQ l).map (fun x => x * c)).length := by
          rw [hmaplen]; omega
        have hi2 : (sortQ l).length / 2 < ((sortQ l).map (fun x => x * c)).length := by
          rw [hmaplen]; omega
        rw [getD_reverse_of_lt _ _ hi1 0, getD_reverse_of_lt _ _ hi2 0, hmaplen]
        have he1 : (sortQ l).length - 1 - ((sortQ l).length / 2 - 1) =
            (sortQ l).length / 2 := by omega
        have he2 : (sortQ l).length - 1 - (sortQ l).length / 2 =
            (sortQ l).length / 2 - 1 := by omega
        rw [he1, he2, getD_map_of_lt _ _ _ (by omega) 0 0,
          getD_map_of_lt _ _ _ (by omega) 0 0]
        simp only [Option.map_some']
        congr 1
        ring
  · rw [medianQ, medianQ, sortQ_map_mul_pos l c hpos]
    simp only [List.length_map]
    by_cases h0 : (sortQ l).length = 0
    · simp [h0]
    · rw [if_neg h0, if_neg h0]
      by_cases hodd : (sortQ l).length % 2 = 1
      · rw [if_pos hodd, if_pos hodd, getD_map_of_lt _ _ _ (by omega) 0 0]
        rfl
      · rw [if_neg hodd, if_neg hodd, getD_map_of_lt _ _ _ (by omega) 0 0,
          getD_map_of_lt _ _ _ (by omega) 0 0]
        simp only [Option.map_some']
        congr 1
        ring

theorem medianQ_div (l : List ℚ) (m : ℚ) (hm : m ≠ 0) :
    medianQ (l.map (fun x => x / m)) = (medianQ l).map (fun x => x / m) := by
  have h := medianQ_mul l m⁻¹ (inv_ne_zero hm)
  simpa [div_eq_mul_inv] using h

theorem filterMap_id_map_odiv (x : List (Option ℚ)) (m : ℚ) (hm : m ≠ 0) :
    (x.map (fun v => odiv v (some m))).filterMap id =
      (x.filterMap id).map (fun v => v / m) := by
  induction x with
  | nil => rfl
  | cons a t ih =>
    cases a with
    | none =>
      simp only [List.map_cons, List.filterMap_cons, odiv, id_eq]
      exact ih
    | some v =>
      have h1 : odiv (some v) (some m) = some (v / m) := by
        simp [odiv, hm]
      simp only [List.map_cons, List.filterMap_cons, h1, id_eq]
      rw [ih]

theorem nanmedian_map_odiv (x : List (Option ℚ)) (m : ℚ) (hm : m ≠ 0) :
    nanmedian (x.map (fun v => odiv v (some m))) =
      (nanmedian x).map (fun v => v / m) := by
  rw [nanmedian, nanmedian, filterMap_id_map_odiv x m hm, medianQ_div _ m hm]

theorem nanmedian_normalize1 (x : List (Option ℚ)) (m : ℚ)
    (hmed : nanmedian x = some m) (hm : m ≠ 0) :
    nanmedian (normalize_spectrum1 x) = some 1 := by
  rw [normalize_spectrum1, hmed, nanmedian_map_odiv x m hm, hmed]
  simp [div_self hm]

/-- `⌈n / b⌉ = ⌊n / b⌋` exactly when `b` divides `n`. -/
theorem ceil_div_eq_floor_div_iff (n b : ℕ) (hb : 0 < b) :
    (n + b - 1) / b = n / b ↔ b ∣ n := by
  have hmod := Nat.mod_lt n hb
  have hdecomp := Nat.div_add_mod n b
  by_cases hr : n % b = 0
  · have hd : b ∣ n := Nat.dvd_of_mod_eq_zero hr
    have hceil : (n + b - 1) / b = n / b := by
      have h1 : n + b - 1 = b * (n / b) + (b - 1) := by omega
      rw [h1, Nat.mul_add_div hb, Nat.div_eq_of_lt (by omega : b - 1 < b)]
      omega
    simp [hceil, hd]
  · have hd : ¬ b ∣ n := fun hdvd => hr (Nat.mod_eq_zero_of_dvd hdvd)
    have hceil : (n + b - 1) / b = n / b + 1 := by
      have hmul : b * (n / b + 1) = b * (n / b) + b := by ring
      have h1 : n + b - 1 = b * (n / b + 1) + (n % b - 1) := by omega
      rw [h1, Nat.mul_add_div hb, Nat.div_eq_of_lt (by omega : n % b - 1 < b)]
    constructor
    · intro h
      omega
    · intro h
      exact absurd h hd

theorem range_windows_join (U k : ℕ) (l : List α) (hlen : l.length = U * k) :
    ((List.range U).map (fun i => (l.drop (i * k)).take k)).flatten = l := by
  induction U generalizing l with
  | zero =>
    have h0 : l = [] := by
      refine List.eq_nil_of_length_eq_zero ?len
      simpa using hlen
    simp [h0]
  | succ U2 ih =>
    have hfg : ((List.range U2).map Nat.succ).map
          (fun i => (l.drop (i * k)).take k) =
        (List.range U2).map (fun i => ((l.drop k).drop (i * k)).take k) := by
      rw [List.map_map]
      apply List.map_congr_left
      intro i _
      simp only [Function.comp, List.drop_drop]
      congr 2
      simp [Nat.succ_eq_add_one]
      ring
    rw [List.range_succ_eq_map, List.map_cons, List.flatten_cons, hfg]
    have hdk : (l.drop k).length = U2 * k := by
      have h2 : (U2 + 1) * k = U2 * k + k := by ring
      simp only [List.length_drop]
      omega
    rw [ih (l.drop k) hdk]
    simp

theorem np_reshape_rows_pos (l : List α) (U : ℕ) (hU : U ≠ 0)
    (hdvd : U ∣ l.length) :
    np_reshape_rows l U = .ok ((List.range U).map
      (fun i => (l.drop (i * (l.length / U))).take (l.length / U))) := by
  rw [np_reshape_rows, if_pos ⟨hU, hdvd⟩]

theorem np_reshape_rows_neg (l : List α) (U : ℕ)
    (h : ¬ (U ≠ 0 ∧ U ∣ l.length)) :
    np_reshape_rows l U = .error .shapeMismatch := by
  rw [np_reshape_rows, if_neg h]

theorem np_reshape_rows_shape (l : List α) (U : ℕ) (hU : U ≠ 0)
    (hdvd : U ∣ l.length) (g : List (List α))
    (hg : np_reshape_rows l U = .ok g) :
    g.length = U ∧ (∀ row ∈ g, row.length = l.length / U) ∧ g.flatten = l := by
  rw [np_reshape_rows_pos l U hU hdvd] at hg
  obtain ⟨k, hk⟩ := hdvd
  have hkdiv : l.length / U = k := by
    rw [hk, Nat.mul_div_cancel_left k (Nat.pos_of_ne_zero hU)]
  cases hg
  refine ⟨by simp, ?rows, ?joined⟩
  case rows =>
    intro row hrow
    obtain ⟨i, hi, hrow2⟩ := List.mem_map.mp hrow
    have hiU : i < U := List.mem_range.mp hi
    subst hrow2
    have hle : (i + 1) * k ≤ U * k :=
      Nat.mul_le_mul_right k (by omega)
    have hexp : (i + 1) * k = i * k + k := by ring
    simp only [List.length_take, List.length_drop, hkdiv]
    omega
  case joined =>
    rw [hkdiv]
    exact range_windows_join U k l hk

theorem npMedian_eq_nanmedian (s : List (Option ℚ))
    (h : s.all (fun x => x.isSome) = true) :
    npMedian s = nanmedian s := by
  rw [npMedian]
  by_cases h1 : s.isEmpty = true ∨ s.any (fun x => x.isNone) = true
  · rcases h1 with h1 | h1
    · have h2 : s = [] := by
        cases s with
        | nil => rfl
        | cons a t => simp [List.isEmpty] at h1
      subst h2
      rfl
    · exfalso
      obtain ⟨x, hx, hnone⟩ := List.any_eq_true.mp h1
      have := List.all_eq_true.mp h x hx
      cases x with
      | none => simp at this
      | some v => simp at hnone
  · rw [if_neg h1]
    rfl

theorem rectShape_drop (g : List (List α)) (r c n : ℕ)
    (h : rectShape g r c) : rectShape (g.drop n) (r - n) c := by
  refine ⟨by rw [List.length_drop, h.1], ?rows⟩
  case rows =>
    intro row hrow
    exact h.2 row (List.mem_of_mem_drop hrow)

theorem rectShape_bin_flux_array (flux_data : List (List (Option ℚ)))
    (b T : ℕ) (hb : 0 < b) (hT : ∀ row ∈ flux_data, row.length = T) :
    rectShape (bin_flux_array flux_data b) flux_data.length (T / b) := by
  refine ⟨by rw [bin_flux_array, List.length_map], ?rows⟩
  case rows =>
    intro row2 h
    obtain ⟨row, hm, he⟩ := List.mem_map.mp h
    subst he
    rw [List.length_map, length_chunks b hb, hT row hm]

theorem rectShape_variability_z (g : List (List (Option ℚ))) (r c : ℕ)
    (h : rectShape g r c) : rectShape (variability_z g) r c := by
  constructor
  · rw [variability_z, List.length_map, h.1]
  · intro row2 h2
    obtain ⟨row, hm, he⟩ := List.mem_map.mp h2
    subst he
    simp only [List.length_map]
    exact h.2 row hm

theorem rectShape_maskOf (lo hi : ℚ) (wg : List (List ℚ)) (r c : ℕ)
    (h : rectShape wg r c) : rectShape (maskOf lo hi wg) r c := by
  constructor
  · rw [maskOf, List.length_map, h.1]
  · intro row2 h2
    obtain ⟨row, hm, he⟩ := List.mem_map.mp h2
    subst he
    rw [List.length_map]
    exact h.2 row hm

theorem rectShape_tgrid_drop (wavelengths : List ℚ) (xr : List ℚ)
    (W c n : ℕ) (hwl : wavelengths.length = W) (hc : xr.length = c) :
    rectShape ((wavelengths.map (fun _ => xr)).drop n) (W - n) c := by
  apply rectShape_drop _ W c n
  constructor
  · rw [List.length_map, hwl]
  · intro row hrow
    obtain ⟨wv, hmem, he⟩ := List.mem_map.mp hrow
    subst he
    exact hc

theorem rectShape_wgrid_drop (wavelengths : List ℚ) (xr : List ℚ)
    (W c n : ℕ) (hwl : wavelengths.length = W) (hc : xr.length = c) :
    rectShape ((wavelengths.map (fun w => xr.map (fun _ => w))).drop n)
      (W - n) c := by
  apply rectShape_drop _ W c n
  constructor
  · rw [List.length_map, hwl]
  · intro row hrow
    obtain ⟨wv, hmem, he⟩ := List.mem_map.mp hrow
    subst he
    rw [List.length_map]
    exact hc

/-! # Claims -/

/-- C1: for every positive integer `bin_size` `b`: on a 1D array of length
`N`, `median_bin` returns an array of length `⌊N/b⌋` whose `i`-th element is
the NaN-aware median of the contiguous window `[i*b, (i+1)*b)` of the input
(the trailing remainder is dropped; an all-NaN window yields NaN because
`nanmedian` of it is `none`); on a 2D array of shape `(W, T)`,
`bin_flux_array` returns an array of shape `(W, ⌊T/b⌋)` whose `(w, i)` entry
is the NaN-aware mean of row `w` over the same window. -/
theorem C1_binner_windows (b : ℕ) (hb : 0 < b) :
    (∀ (input_array : List (Option ℚ)),
      (median_bin input_array b).length = input_array.length / b ∧
      ∀ i, i < input_array.length / b →
        (median_bin input_array b)[i]? =
          some (nanmedian ((input_array.drop (i * b)).take b))) ∧
    (∀ (flux_data : List (List (Option ℚ))) (W T : ℕ),
      flux_data.length = W → (∀ row ∈ flux_data, row.length = T) →
      (bin_flux_array flux_data b).length = W ∧
      (∀ row2 ∈ bin_flux_array flux_data b, row2.length = T / b) ∧
      ∀ w t, w < W → t < T / b →
        ((bin_flux_array flux_data b)[w]?.getD [])[t]? =
          some (nanmean (((flux_data[w]?.getD []).drop (t * b)).take b))) := by
  constructor
  · intro input_array
    constructor
    · rw [median_bin, List.length_map, length_chunks b hb]
    · intro i hi
      rw [median_bin, List.getElem?_map, chunks_getElem? b hb input_array i hi]
      rfl
  · intro flux_data W T hW hT
    refine ⟨by simp [bin_flux_array, hW], ?rows, ?cells⟩
    case rows =>
      intro row2 hrow2
      obtain ⟨row, hrowmem, hrow2eq⟩ := List.mem_map.mp hrow2
      subst hrow2eq
      rw [List.length_map, length_chunks b hb, hT row hrowmem]
    case cells =>
      intro w t hw ht
      have hwlt : w < flux_data.length := by omega
      rw [bin_flux_array, List.getElem?_map, List.getElem?_eq_getElem hwlt]
      simp only [Option.map_some', Option.getD_some]
      have hrowlen : flux_data[w].length = T :=
        hT flux_data[w] (List.getElem_mem hwlt)
      rw [List.getElem?_map,
        chunks_getElem? b hb flux_data[w] t (by rw [hrowlen]; exact ht)]
      rfl

unseal Rat.add Rat.mul Rat.sub Rat.inv Rat.ofScientific in
/-- Witness for C1 at the spec scenario inputs. -/
theorem C1_binner_windows_witness :
    (median_bin [some 1, some 3, some 2, none, some 5] 2)[1]? =
      some (nanmedian ((([some 1, some 3, some 2, none, some 5] :
        List (Option ℚ)).drop (1 * 2)).take 2)) ∧
    ((bin_flux_array [[some 1, some 2, some 3, some 4],
        [some 5, some 6, some 7, some 8]] 2)[1]?.getD [])[0]? =
      some (nanmean (((([[some 1, some 2, some 3, some 4],
        [some 5, some 6, some 7, some 8]] :
        List (List (Option ℚ)))[1]?.getD []).drop (0 * 2)).take 2)) := by
  constructor
  · exact ((C1_binner_windows 2 (by decide)).1 _).2 1 (by decide)
  · exact ((C1_binner_windows 2 (by decide)).2
      [[some 1, some 2, some 3, some 4], [some 5, some 6, some 7, some 8]]
      2 4 (by decide) (by decide)).2.2 1 0 (by decide) (by decide)

/-- C2 counterexample: for a flux grid of shape `(1, 5)` and `bin_size = 2`
the strided time axis `times[::2]` has 3 elements while the binned flux grid
has `⌊5/2⌋ = 2` columns, so the two lengths differ. -/
theorem C2_counterexample :
    ¬ ((strideSample [0, 1, 2, 3, 4] 2).length =
      ((bin_flux_array [[some 1, some 1, some 1, some 1, some 1]]
        2)[0]?.getD []).length) := by
  decide

/-- C2 (amended): for a flux grid of shape `(W, T)`, a paired time axis of
length `T` and a positive `bin_size` `b`, the stride-subsampled time axis
`times[::b]` has length `⌈T/b⌉` while the binned flux grid has `⌊T/b⌋`
columns; the two lengths agree exactly when `b` divides `T`. -/
theorem C2_binned_axis_lengths (flux_data : List (List (Option ℚ)))
    (times : List ℚ) (b T : ℕ) (hb : 0 < b) (ht : times.length = T)
    (hrect : ∀ row ∈ flux_data, row.length = T) :
    (strideSample times b).length = (T + b - 1) / b ∧
    (∀ row2 ∈ bin_flux_array flux_data b, row2.length = T / b) ∧
    ((strideSample times b).length = T / b ↔ b ∣ T) := by
  have hlen : (strideSample times b).length = (T + b - 1) / b := by
    rw [strideSample, List.length_map, List.length_range, ht]
  refine ⟨hlen, ?rows, ?iff⟩
  case rows =>
    intro row2 h
    obtain ⟨row, hm, he⟩ := List.mem_map.mp h
    subst he
    rw [List.length_map, length_chunks b hb, hrect row hm]
  case iff =>
    rw [hlen]
    exact ceil_div_eq_floor_div_iff T b hb

/-- Witness for C2 (amended) at `T = 5`, `b = 2`. -/
theorem C2_binned_axis_lengths_witness :
    (strideSample [0, 1, 2, 3, 4] 2).length = (5 + 2 - 1) / 2 ∧
    (∀ row2 ∈ bin_flux_array [[some 1, some 1, some 1, some 1, some 1]] 2,
      row2.length = 5 / 2) ∧
    ((strideSample [0, 1, 2, 3, 4] 2).length = 5 / 2 ↔ 2 ∣ 5) :=
  C2_binned_axis_lengths [[some 1, some 1, some 1, some 1, some 1]]
    [0, 1, 2, 3, 4] 2 5 (by decide) (by decide) (by decide)

unseal Rat.add Rat.mul Rat.sub Rat.inv Rat.ofScientific in
/-- C5 counterexample: `bin_size = 5/2` is not a positive integer, yet
`bin_flux_array` succeeds after silently truncating it to 2, instead of
failing with `InvalidParameter`. -/
theorem C5_counterexample :
    bin_flux_array_dyn [[some 1, some 1, some 1]] (5 / 2) =
      .ok (bin_flux_array [[some 1, some 1, some 1]] 2) := by
  have h : pyInt (5 / 2) = 2 := by decide
  simp [bin_flux_array_dyn, h]

/-- C5 (amended): the binner first coerces `bin_size` with `int()`
(truncation toward zero); a coerced value of zero fails with a
`ZeroDivisionError` at the `//`, a negative one with a reshape
`ValueError` — neither through a dedicated parameter check — while any
value truncating to a positive integer (such as the non-integer 5/2)
silently succeeds on the truncated value. -/
theorem C5_bin_size_coerced (flux_data : List (List (Option ℚ))) (q : ℚ) :
    (pyInt q = 0 → bin_flux_array_dyn flux_data q = .error .zeroDivision) ∧
    (pyInt q < 0 → bin_flux_array_dyn flux_data q = .error .valueError) ∧
    (0 < pyInt q → bin_flux_array_dyn flux_data q =
      .ok (bin_flux_array flux_data (pyInt q).toNat)) := by
  refine ⟨?hz, ?hn, ?hp⟩
  case hz =>
    intro h
    simp [bin_flux_array_dyn, h]
  case hn =>
    intro h
    rw [bin_flux_array_dyn]
    rw [if_neg (by omega), if_pos h]
  case hp =>
    intro h
    rw [bin_flux_array_dyn]
    rw [if_neg (by omega), if_neg (by omega)]

/-- Witness for C5 (amended) at `bin_size` 0, −3 and 2. -/
theorem C5_bin_size_coerced_witness :
    bin_flux_array_dyn [[some 1]] 0 = .error .zeroDivision ∧
    bin_flux_array_dyn [[some 1]] (-3) = .error .valueError ∧
    bin_flux_array_dyn [[some 1, some 1]] 2 =
      .ok (bin_flux_array [[some 1, some 1]] (pyInt 2).toNat) :=
  ⟨(C5_bin_size_coerced [[some 1]] 0).1 (by decide),
   (C5_bin_size_coerced [[some 1]] (-3)).2.1 (by decide),
   (C5_bin_size_coerced [[some 1, some 1]] 2).2.2 (by decide)⟩

/-- C4: on a table with `R > 0` rows (every column of length `R`),
`extract_miri_data` succeeds iff each channel's unique-wavelength count
divides `R`; when a division is not exact it fails with `ShapeMismatch`,
and on success each channel's flux column is reshaped losslessly into a
grid of `U` rows of `R/U` columns whose row-major flattening restores the
original column. -/
theorem C4_extract_lossless (wla wlb : List ℚ) (fluxa fluxb : List (Option ℚ))
    (mjd : List ℚ) (R : ℕ) (hfa : fluxa.length = R) (hfb : fluxb.length = R)
    (hR : 0 < R) :
    ((∃ out, extract_miri_data wla wlb fluxa fluxb mjd = .ok out) ↔
      ((np_unique wla).length ∣ R ∧ (np_unique wlb).length ∣ R)) ∧
    ((¬ ((np_unique wla).length ∣ R ∧ (np_unique wlb).length ∣ R)) →
      extract_miri_data wla wlb fluxa fluxb mjd = .error .shapeMismatch) ∧
    (∀ ut ua ub sa sb,
      extract_miri_data wla wlb fluxa fluxb mjd = .ok (ut, ua, ub, sa, sb) →
      ut = np_unique mjd ∧ ua = np_unique wla ∧ ub = np_unique wlb ∧
      sa.length = ua.length ∧ (∀ row ∈ sa, row.length = R / ua.length) ∧
      sa.flatten = fluxa ∧
      sb.length = ub.length ∧ (∀ row ∈ sb, row.length = R / ub.length) ∧
      sb.flatten = fluxb) := by
  by_cases hA : (np_unique wla).length ∣ R
  · by_cases hB : (np_unique wlb).length ∣ R
    · have hUa : (np_unique wla).length ≠ 0 := by
        have := Nat.pos_of_dvd_of_pos hA hR
        omega
      have hUb : (np_unique wlb).length ≠ 0 := by
        have := Nat.pos_of_dvd_of_pos hB hR
        omega
      have e1 := np_reshape_rows_pos fluxa (np_unique wla).length hUa
        (by rw [hfa]; exact hA)
      have e2 := np_reshape_rows_pos fluxb (np_unique wlb).length hUb
        (by rw [hfb]; exact hB)
      have hext : extract_miri_data wla wlb fluxa fluxb mjd =
          .ok (np_unique mjd, np_unique wla, np_unique wlb,
            (List.range (np_unique wla).length).map
              (fun i => (fluxa.drop (i * (fluxa.length / (np_unique wla).length))).take
                (fluxa.length / (np_unique wla).length)),
            (List.range (np_unique wlb).length).map
              (fun i => (fluxb.drop (i * (fluxb.length / (np_unique wlb).length))).take
                (fluxb.length / (np_unique wlb).length))) := by
        rw [extract_miri_data, e1, e2]
      refine ⟨⟨fun _ => ⟨hA, hB⟩, fun _ => ⟨_, hext⟩⟩, ?err, ?shapes⟩
      case err =>
        intro hcontra
        exact absurd ⟨hA, hB⟩ hcontra
      case shapes =>
        intro ut ua ub sa sb h
        rw [hext] at h
        injection h with h2
        simp only [Prod.mk.injEq] at h2
        obtain ⟨hut, hua, hub, hsa, hsb⟩ := h2
        subst hut
        subst hua
        subst hub
        subst hsa
        subst hsb
        have s1 := np_reshape_rows_shape fluxa (np_unique wla).length hUa
          (by rw [hfa]; exact hA) _ e1
        have s2 := np_reshape_rows_shape fluxb (np_unique wlb).length hUb
          (by rw [hfb]; exact hB) _ e2
        refine ⟨rfl, rfl, rfl, s1.1, ?ra, s1.2.2, s2.1, ?rb, s2.2.2⟩
        case ra =>
          intro row hr
          have hrow := s1.2.1 row hr
          rw [hfa] at hrow
          exact hrow
        case rb =>
          intro row hr
          have hrow := s2.2.1 row hr
          rw [hfb] at hrow
          exact hrow
    · have hUa : (np_unique wla).length ≠ 0 := by
        have := Nat.pos_of_dvd_of_pos hA hR
        omega
      have e1 := np_reshape_rows_pos fluxa (np_unique wla).length hUa
        (by rw [hfa]; exact hA)
      have e2 := np_reshape_rows_neg fluxb (np_unique wlb).length
        (by rintro ⟨hne, hdvd⟩; rw [hfb] at hdvd; exact hB hdvd)
      have hext : extract_miri_data wla wlb fluxa fluxb mjd =
          .error .shapeMismatch := by
        rw [extract_miri_data, e1, e2]
      refine ⟨⟨?mp, ?mpr⟩, fun _ => hext, ?shapes⟩
      case mp =>
        rintro ⟨out, hout⟩
        rw [hext] at hout
        simp at hout
      case mpr =>
        rintro ⟨_, hB2⟩
        exact absurd hB2 hB
      case shapes =>
        intro ut ua ub sa sb h
        rw [hext] at h
        simp at h
  · have e1 := np_reshape_rows_neg fluxa (np_unique wla).length
      (by rintro ⟨hne, hdvd⟩; rw [hfa] at hdvd; exact hA hdvd)
    have hext : extract_miri_data wla wlb fluxa fluxb mjd =
        .error .shapeMismatch := by
      rw [extract_miri_data, e1]
    refine ⟨⟨?mp2, ?mpr2⟩, fun _ => hext, ?shapes2⟩
    case mp2 =>
      rintro ⟨out, hout⟩
      rw [hext] at hout
      simp at hout
    case mpr2 =>
      rintro ⟨hA2, _⟩
      exact absurd hA2 hA
    case shapes2 =>
      intro ut ua ub sa sb h
      rw [hext] at h
      simp at h

/-- Witness for C4: a table with 4 rows, two unique wavelengths per
channel, divisibility holds, so extraction succeeds. -/
theorem C4_extract_lossless_witness :
    ∃ out, extract_miri_data [1, 1, 2, 2] [5, 6]
      [some 1, some 2, some 3, some 4] [some 5, some 6, some 7, some 8]
      [0, 1] = .ok out :=
  (C4_extract_lossless [1, 1, 2, 2] [5, 6]
    [some 1, some 2, some 3, some 4] [some 5, some 6, some 7, some 8]
    [0, 1] 4 (by decide) (by decide) (by decide)).1.mpr (by decide)

/-- C9: `normalize_spectrum` is idempotent up to scale: for every 1D array
whose NaN-aware median is a (finite) nonzero value, the NaN-aware median of
`normalize(normalize(x))` is exactly 1, and likewise per row for a 2D
array whose row's NaN-aware median is a nonzero value. -/
theorem C9_normalize_idempotent :
    (∀ (x : List (Option ℚ)) (m : ℚ), nanmedian x = some m → m ≠ 0 →
      nanmedian (normalize_spectrum1 (normalize_spectrum1 x)) = some 1) ∧
    (∀ (g : List (List (Option ℚ))) (i : ℕ) (m : ℚ), i < g.length →
      nanmedian (g[i]?.getD []) = some m → m ≠ 0 →
      nanmedian ((normalize_spectrum2 (normalize_spectrum2 g))[i]?.getD []) =
        some 1) := by
  have h1 : ∀ (x : List (Option ℚ)) (m : ℚ), nanmedian x = some m → m ≠ 0 →
      nanmedian (normalize_spectrum1 (normalize_spectrum1 x)) = some 1 := by
    intro x m hm hm0
    have hfirst : nanmedian (normalize_spectrum1 x) = some 1 :=
      nanmedian_normalize1 x m hm hm0
    exact nanmedian_normalize1 (normalize_spectrum1 x) 1 hfirst one_ne_zero
  have hrow : ∀ (g2 : List (List (Option ℚ))) (j : ℕ), j < g2.length →
      (normalize_spectrum2 g2)[j]?.getD [] =
        normalize_spectrum1 (g2[j]?.getD []) := by
    intro g2 j hj
    rw [normalize_spectrum2, List.getElem?_map, List.getElem?_eq_getElem hj]
    rfl
  refine ⟨h1, ?d2⟩
  case d2 =>
    intro g i m hi hm hm0
    have hlen2 : (normalize_spectrum2 g).length = g.length := by
      rw [normalize_spectrum2, List.length_map]
    rw [hrow (normalize_spectrum2 g) i (by rw [hlen2]; exact hi),
      hrow g i hi]
    exact h1 (g[i]?.getD []) m hm hm0

/-- Witness for C9 on the 1D array `[4]` and the 2D array `[[4]]`. -/
theorem C9_normalize_idempotent_witness :
    nanmedian (normalize_spectrum1 (normalize_spectrum1 [some 4])) =
      some 1 ∧
    nanmedian ((normalize_spectrum2
      (normalize_spectrum2 [[some 4]]))[0]?.getD []) = some 1 :=
  ⟨C9_normalize_idempotent.1 [some 4] 4 (by decide) (by decide),
   C9_normalize_idempotent.2 [[some 4]] 0 4 (by decide) (by decide)
     (by decide)⟩

/-- C3: in the variability mode of `plot_enhanced_lightcurve_map`, for
every binned flux grid the z value at `(w, t)` equals
`((flux[w,t] / nanmedian(row w)) - 1) * 100` when `flux[w,t]` is finite
(the division itself NaN-propagating), and is NaN when `flux[w,t]` is not
finite — never a fabricated number. -/
theorem C3_variability_formula (flux_data : List (List (Option ℚ)))
    (w t : ℕ) (hw : w < flux_data.length)
    (ht : t < (flux_data[w]?.getD []).length) :
    ((variability_z flux_data)[w]?.getD [])[t]?.getD none =
      (match (flux_data[w]?.getD [])[t]?.getD none with
       | none => none
       | some x =>
         match nanmedian (flux_data[w]?.getD []) with
         | none => none
         | some mv => if mv = 0 then none else some ((x / mv - 1) * 100)) := by
  rw [List.getElem?_eq_getElem hw] at ht ⊢
  rw [Option.getD_some] at ht
  rw [variability_z, List.getElem?_map, List.getElem?_eq_getElem hw]
  simp only [Option.map_some', Option.getD_some]
  rw [List.getElem?_map, List.getElem?_eq_getElem ht]
  simp only [Option.map_some', Option.getD_some]
  cases hcell : flux_data[w][t] with
  | none => simp [isFin]
  | some x =>
    simp only [isFin]
    cases hmed : nanmedian flux_data[w] with
    | none => simp [odiv, osub, omul]
    | some mv =>
      by_cases hz : mv = 0
      · simp [odiv, osub, omul, hz]
      · simp [odiv, osub, omul, hz]

/-- Witness for C3 at the grid `[[2, 4]]`, position `(0, 0)`. -/
theorem C3_variability_formula_witness :
    ((variability_z [[some 2, some 4]])[0]?.getD [])[0]?.getD none =
      (match (([[some 2, some 4]] :
          List (List (Option ℚ)))[0]?.getD [])[0]?.getD none with
       | none => none
       | some x =>
         match nanmedian (([[some 2, some 4]] :
             List (List (Option ℚ)))[0]?.getD []) with
         | none => none
         | some mv => if mv = 0 then none else some ((x / mv - 1) * 100)) :=
  C3_variability_formula [[some 2, some 4]] 0 0 (by decide) (by decide)

unseal Rat.add Rat.mul Rat.sub Rat.inv Rat.ofScientific in
/-- C7 counterexample: with flux `[[1, 1, NaN, NaN]]`, one wavelength 2.2
(inside the CH4 band) and `bin_size = 2`, the binned band series is
`[1, NaN]`; the source divides by plain `np.median`, which is NaN on this
series, so the returned light curve is `[NaN, NaN]`, whereas the claimed
NaN-aware convention would give `[1, NaN]`. -/
theorem C7_counterexample :
    (match plot_specific_wavelength_lightcurves
        [[some 1, some 1, none, none]] [2.2] [0, 1, 2, 3] 2 with
     | .ok r => r.ch4_lightcurve
     | .error _ => []) ≠
      normalize_by_nanmedian (bandSeries
        (bin_flux_array [[some 1, some 1, none, none]] 2)
        (bandIndices 2.14 2.5 [2.2])
        (colCount [[some 1, some 1, none, none]] / 2)) := by
  decide

/-- C7 (amended): each band series is normalized by its own plain
`np.median`, which is not NaN-aware; the output coincides with the claimed
NaN-aware convention (division by `np.nanmedian`) exactly on runs where the
band series contains no NaN — stated here for such series; if any element
of the series is NaN, the divisor is NaN and the whole output series is
NaN. -/
theorem C7_band_normalization (flux_data : List (List (Option ℚ)))
    (wavelengths times : List ℚ) (b : ℕ)
    (hs1 : (bandSeries (bin_flux_array flux_data b)
      (bandIndices 2.14 2.5 wavelengths)
      (colCount flux_data / b)).all (fun v => v.isSome) = true)
    (hs2 : (bandSeries (bin_flux_array flux_data b)
      (bandIndices 4.5 5.05 wavelengths)
      (colCount flux_data / b)).all (fun v => v.isSome) = true) :
    lcSeriesAre
      (plot_specific_wavelength_lightcurves flux_data wavelengths times b)
      (normalize_by_nanmedian (bandSeries (bin_flux_array flux_data b)
        (bandIndices 2.14 2.5 wavelengths) (colCount flux_data / b)))
      (normalize_by_nanmedian (bandSeries (bin_flux_array flux_data b)
        (bandIndices 4.5 5.05 wavelengths) (colCount flux_data / b))) := by
  rw [plot_specific_wavelength_lightcurves]
  by_cases he : (strideSample times b).isEmpty
  · rw [if_pos he]
    exact trivial
  · rw [if_neg he]
    refine ⟨?ch4, ?co⟩
    case ch4 =>
      rw [npMedian_eq_nanmedian _ hs1]
      rfl
    case co =>
      rw [npMedian_eq_nanmedian _ hs2]
      rfl

unseal Rat.add Rat.mul Rat.sub Rat.inv Rat.ofScientific in
/-- Witness for C7 (amended) on a NaN-free two-band grid. -/
theorem C7_band_normalization_witness :
    lcSeriesAre
      (plot_specific_wavelength_lightcurves
        [[some 2, some 4], [some 6, some 8]] [2.2, 4.6] [0, 1] 1)
      (normalize_by_nanmedian (bandSeries
        (bin_flux_array [[some 2, some 4], [some 6, some 8]] 1)
        (bandIndices 2.14 2.5 [2.2, 4.6])
        (colCount [[some 2, some 4], [some 6, some 8]] / 1)))
      (normalize_by_nanmedian (bandSeries
        (bin_flux_array [[some 2, some 4], [some 6, some 8]] 1)
        (bandIndices 4.5 5.05 [2.2, 4.6])
        (colCount [[some 2, some 4], [some 6, some 8]] / 1))) :=
  C7_band_normalization [[some 2, some 4], [some 6, some 8]] [2.2, 4.6]
    [0, 1] 1 (by decide) (by decide)

/-- C8: in flux mode, on any successful run of
`plot_enhanced_lightcurve_map` the returned z grid is exactly the binned
input flux grid with its first 60 wavelength rows discarded, every
surviving value unchanged (vacuous when the run fails). -/
theorem C8_flux_mode_z (flux_data : List (List (Option ℚ)))
    (wavelengths times : List ℚ) (b : ℕ) :
    resultZIs
      (plot_enhanced_lightcurve_map flux_data wavelengths times "flux" b)
      ((bin_flux_array flux_data b).drop 60) := by
  have hz : zForMode "flux" (bin_flux_array flux_data b) =
      .ok (bin_flux_array flux_data b) := rfl
  simp only [plot_enhanced_lightcurve_map, hz]
  split
  · exact trivial
  · split
    · exact trivial
    · split
      · exact rfl
      · exact trivial

/-- C6: `plot_enhanced_lightcurve_map` fails with `EmptyResult` when the
binned time axis is empty (zero binned time points), and fails with
`EmptyResult` when no finite value remains in the z grid after the leading
60-row trim (the source logs an error and returns without producing its
plot in both cases; modelled as the `EmptyResult` failure); consequently a
successful run has a nonzero binned time count and a finite value in its
returned z grid. -/
theorem C6_empty_result_guards (flux_data : List (List (Option ℚ)))
    (wavelengths times : List ℚ) (plot_type : String) (b : ℕ) :
    (colCount flux_data / b = 0 →
      plot_enhanced_lightcurve_map flux_data wavelengths times plot_type b =
        .error .emptyResult) ∧
    (∀ z0, colCount flux_data / b ≠ 0 →
      (strideSample times b).isEmpty = false →
      zForMode plot_type (bin_flux_array flux_data b) = .ok z0 →
      anyFinite (z0.drop 60) = false →
      plot_enhanced_lightcurve_map flux_data wavelengths times plot_type b =
        .error .emptyResult) ∧
    (∀ out,
      plot_enhanced_lightcurve_map flux_data wavelengths times plot_type b =
        .ok out →
      anyFinite out.z_data = true ∧ colCount flux_data / b ≠ 0) := by
  refine ⟨?guard1, ?guard2, ?success⟩
  case guard1 =>
    intro h
    simp only [plot_enhanced_lightcurve_map, if_pos h]
  case guard2 =>
    intro z0 h1 h2 hz hfin
    simp only [plot_enhanced_lightcurve_map, if_neg h1, hz]
    rw [if_neg (by rw [h2]; exact Bool.false_ne_true)]
    rw [if_neg (by rw [hfin]; exact Bool.false_ne_true)]
  case success =>
    intro out h
    simp only [plot_enhanced_lightcurve_map] at h
    by_cases h1 : colCount flux_data / b = 0
    · rw [if_pos h1] at h
      exact absurd h (by simp)
    · rw [if_neg h1] at h
      by_cases h2 : (strideSample times b).isEmpty = true
      · rw [if_pos h2] at h
        exact absurd h (by simp)
      · rw [if_neg h2] at h
        split at h
        · exact absurd h (by simp)
        · next z0 heq =>
          by_cases h3 : anyFinite (z0.drop 60) = true
          · rw [if_pos h3] at h
            injection h with h2
            subst h2
            exact ⟨h3, h1⟩
          · rw [if_neg h3] at h
            exact absurd h (by simp)

/-- Witness for C6: a `(1, 1)` grid binned with `bin_size = 2` has an empty
binned time axis; a `(61, 1)` all-NaN grid leaves no finite value after the
60-row trim.  Both runs fail with `EmptyResult`. -/
theorem C6_empty_result_guards_witness :
    plot_enhanced_lightcurve_map [[some 1]] [0] [0] "flux" 2 =
      .error .emptyResult ∧
    plot_enhanced_lightcurve_map (List.replicate 61 [none]) [0] [0]
      "variability" 1 = .error .emptyResult :=
  ⟨(C6_empty_result_guards [[some 1]] [0] [0] "flux" 2).1 (by decide),
   (C6_empty_result_guards (List.replicate 61 [none]) [0] [0]
      "variability" 1).2.1
    (variability_z (bin_flux_array (List.replicate 61 [none]) 1))
    (by decide) (by decide) rfl (by decide)⟩

/-- C10: the meshgrid coordinate grids are truncated to the binned flux
grid's column count before use, so on any successful run over a `(W, T)`
rectangular flux grid with matching axes the returned time grid, wavelength
grid, z grid and both band masks all have shape `(W - 60, ⌊T/b⌋)` — also
when `b` does not divide `T` (vacuous when the run fails). -/
theorem C10_output_shapes (flux_data : List (List (Option ℚ)))
    (wavelengths times : List ℚ) (plot_type : String) (b W T : ℕ)
    (hW : flux_data.length = W) (hT : ∀ row ∈ flux_data, row.length = T)
    (hwl : wavelengths.length = W) (htimes : times.length = T) (hb : 0 < b) :
    resultShapesOk
      (plot_enhanced_lightcurve_map flux_data wavelengths times plot_type b)
      (W - 60) (T / b) := by
  simp only [plot_enhanced_lightcurve_map]
  by_cases h1 : colCount flux_data / b = 0
  · rw [if_pos h1]
    exact trivial
  · rw [if_neg h1]
    by_cases h2 : (strideSample times b).isEmpty = true
    · rw [if_pos h2]
      exact trivial
    · rw [if_neg h2]
      have hcc : colCount flux_data = T := by
        cases flux_data with
        | nil =>
          exfalso
          exact h1 (by simp [colCount])
        | cons r t =>
          have hr : r.length = T := hT r (List.mem_cons_self r t)
          simpa [colCount] using hr
      have hxr : (((strideSample times b).map
          (fun t => (t - listMinD (strideSample times b)) * 24)).take
            (colCount flux_data / b)).length = T / b := by
        rw [List.length_take, List.length_map, strideSample, List.length_map,
          List.length_range, htimes, hcc]
        have hle : T / b ≤ (T + b - 1) / b := Nat.div_le_div_right (by omega)
        omega
      split
      · exact trivial
      · next z0 heq =>
        by_cases h3 : anyFinite (z0.drop 60) = true
        · rw [if_pos h3]
          have hrectflux :
              rectShape (bin_flux_array flux_data b) W (T / b) := by
            have hh := rectShape_bin_flux_array flux_data b T hb hT
            rwa [hW] at hh
          have hrectz0 : rectShape z0 W (T / b) := by
            rw [zForMode] at heq
            by_cases hv : plot_type = "variability"
            · rw [if_pos hv] at heq
              injection heq with hz
              rw [← hz]
              exact rectShape_variability_z _ _ _ hrectflux
            · rw [if_neg hv] at heq
              by_cases hf : plot_type = "flux"
              · rw [if_pos hf] at heq
                injection heq with hz
                rw [← hz]
                exact hrectflux
              · rw [if_neg hf] at heq
                exact absurd heq (by simp)
          refine ⟨?tg, ?wg, ?zg, ?m1, ?m2⟩
          case tg =>
            exact rectShape_tgrid_drop wavelengths _ W (T / b) 60 hwl hxr
          case wg =>
            exact rectShape_wgrid_drop wavelengths _ W (T / b) 60 hwl hxr
          case zg => exact rectShape_drop z0 W (T / b) 60 hrectz0
          case m1 =>
            exact rectShape_maskOf 2.14 2.5 _ _ _
              (rectShape_wgrid_drop wavelengths _ W (T / b) 60 hwl hxr)
          case m2 =>
            exact rectShape_maskOf 4.5 5.05 _ _ _
              (rectShape_wgrid_drop wavelengths _ W (T / b) 60 hwl hxr)
        · rw [if_neg h3]
          exact trivial

/-- Witness for C10: a `(61, 3)` grid of ones with `bin_size = 2` (which
does not divide 3). -/
theorem C10_output_shapes_witness :
    resultShapesOk
      (plot_enhanced_lightcurve_map
        (List.replicate 61 [some 1, some 1, some 1])
        (List.replicate 61 (0 : ℚ)) [0, 1, 2] "variability" 2)
      (61 - 60) (3 / 2) :=
  C10_output_shapes (List.replicate 61 [some 1, some 1, some 1])
    (List.replicate 61 (0 : ℚ)) [0, 1, 2] "variability" 2 61 3
    (by decide) (by decide) (by decide) (by decide) (by decide)

end AstroSpecVis
